import Mathlib

/-!
Shallow embedding of `src/dataset/tools/convert_label.py` (barcode-detection
label converter) and proofs about it.

Modelling conventions:
* JSON numbers (coordinates, image sizes) are rationals `ℚ`; the geometry of
  rotated rectangles (square roots, `arctan2`) lives in `ℝ`.
* A parsed label file is a record (`LabelFile`); filesystem traversal and the
  JSON decoder itself are outside the embedding, which starts from the decoded
  document, with the claim-relevant optionality (the `group_id` key may be
  absent, or present and null) modelled explicitly.
* Python `defaultdict(list)` maps keyed by `group_id` are association lists in
  insertion order of keys; `dappend` models `m[k].append(x)` and `dget` models
  the read `m[k]` (which inserts `[]` for a missing key).
* Code that can raise (`KeyError`, `IndexError`, `ValueError`) returns
  `Except String`; numpy operations that raise on out-of-range indexing or on
  empty input are modelled with `Option`, turned into `Except.error` at the
  call site exactly where the Python exception would escape.
* `numpy.argsort` over the angle array followed by fancy indexing is modelled
  as a stable sort of the (angle, vertex) pairs by angle (`List.insertionSort`);
  the two agree whenever the angles are pairwise distinct.
* The catalogue `misc.valid_pids_map` is not under `src/`; following the spec
  it is an injected read-only association list from sorted part-id tuples to
  class labels, passed as an explicit argument `vpm`.
-/

/-- One entry of the `shapes` array of a label JSON document.  `group_id` is
`none` when the key is absent from the JSON object, `some none` when it is
present with value `null`, and `some (some k)` when it is the integer `k`.
`label` is the integer value of the stringified label (its string-to-int
parsing is assumed to succeed, as in every claim considered here). -/
structure Shape where
  shape_type : String
  label : ℤ
  group_id : Option (Option ℤ)
  points : List (ℚ × ℚ)

/-- A decoded label JSON document. -/
structure LabelFile where
  imageWidth : ℚ
  imageHeight : ℚ
  shapes : List Shape

/-- `defaultdict(list)`: `m[k].append(x)`.  Appends to the entry of key `k`,
creating it at the end (Python dict insertion order) when missing. -/
def dappend {α : Type} (m : List (ℤ × List α)) (k : ℤ) (x : α) : List (ℤ × List α) :=
  match m with
  | [] => [(k, [x])]
  | (k1, v) :: rest => if k1 = k then (k1, v ++ [x]) :: rest else (k1, v) :: dappend rest k x

/-- `defaultdict(list)`: the read `m[k]`, which returns the stored list, or
inserts and returns `[]` when the key is missing.  Returns the value and the
possibly-extended map. -/
def dget {α : Type} (m : List (ℤ × List α)) (k : ℤ) : List α × List (ℤ × List α) :=
  match m.lookup k with
  | some v => (v, m)
  | none => ([], m ++ [(k, [])])

/-- The loop body of `parse_label_file` over the `shapes` array, threading the
two accumulator maps.  Mirrors lines 73-81 of `convert_label.py`:
skip non-point shapes and part-ids `-1`/`7`; `shape['points'][0]` raises
`IndexError` on an empty list; `shape['group_id']` raises `KeyError` when the
key is absent; the Python truthiness default (`group_id if group_id else 0`)
sends both `null` and `0` to group `0`. -/
def parse_shapes : List Shape → List (ℤ × List (ℚ × ℚ)) → List (ℤ × List ℤ) →
    Except String (List (ℤ × List (ℚ × ℚ)) × List (ℤ × List ℤ))
  | [], vertices_map, pids_map => .ok (vertices_map, pids_map)
  | s :: rest, vertices_map, pids_map =>
    if s.shape_type ≠ ("point") ∨ s.label = -1 ∨ s.label = 7 then
      parse_shapes rest vertices_map pids_map
    else
      match s.points with
      | [] => .error ("IndexError: points")
      | vertex :: _ =>
        match s.group_id with
        | none => .error ("KeyError: group_id")
        | some g =>
          let group_id : ℤ := g.getD 0
          parse_shapes rest (dappend vertices_map group_id vertex)
            (dappend pids_map group_id s.label)

/-- `parse_label_file` on a decoded document: builds the per-group vertex and
part-id maps and passes the image size through unchecked. -/
def parse_label_file (f : LabelFile) :
    Except String (List (ℤ × List (ℚ × ℚ)) × List (ℤ × List ℤ) × ℚ × ℚ) :=
  (parse_shapes f.shapes [] []).map (fun r => (r.1, r.2, f.imageWidth, f.imageHeight))

/-- `vertices_to_bbox`: elementwise min and max of the vertex list
(`np.min(vertices, axis=0)`, `np.max(vertices, axis=0)`).  `none` models the
`ValueError` numpy raises when reducing an empty array. -/
def vertices_to_bbox (vertices : List (ℚ × ℚ)) : Option (List ℚ) :=
  match vertices with
  | [] => none
  | v :: vs =>
    let x_min := vs.foldl (fun a p => min a p.1) v.1
    let y_min := vs.foldl (fun a p => min a p.2) v.2
    let x_max := vs.foldl (fun a p => max a p.1) v.1
    let y_max := vs.foldl (fun a p => max a p.2) v.2
    some [x_min, y_min, x_max, y_max]

/-- `numpy.arctan2 y x`: the angle of the point `(x, y)`, in `(-π, π]`. -/
noncomputable def atan2 (y x : ℝ) : ℝ :=
  if 0 < x then Real.arctan (y / x)
  else if x < 0 ∧ 0 ≤ y then Real.arctan (y / x) + Real.pi
  else if x < 0 ∧ y < 0 then Real.arctan (y / x) - Real.pi
  else if x = 0 ∧ 0 < y then Real.pi / 2
  else if x = 0 ∧ y < 0 then -(Real.pi / 2)
  else 0

/-- `np.linalg.norm` of a 2-vector. -/
noncomputable def norm2 (p : ℝ × ℝ) : ℝ :=
  Real.sqrt (p.1 ^ 2 + p.2 ^ 2)

/-- `np.rad2deg`. -/
noncomputable def rad2deg (x : ℝ) : ℝ :=
  x * 180 / Real.pi

/-- `vertices_to_rrect` (lines 25-55 of `convert_label.py`).

Centroid and rotation angle are arithmetic means over all vertices; the
vertices are then sorted by their `atan2` angle about the centroid
(`np.argsort` plus fancy indexing, modelled as a stable sort of the
(angle, vertex) pairs by angle).  `none` models the `IndexError` that
`box_vertices[3]` raises when there are fewer than 4 vertices.

Note on lines 49-52 of the source: `np.mean` is applied to the *sum* of the
two opposite edge norms — the mean of a scalar is that scalar — so `rect_w`
and `rect_h` are the sums `|v1-v0| + |v3-v2|` and `|v2-v1| + |v0-v3|`, not
their halves. -/
noncomputable def vertices_to_rrect (vertices : List (ℝ × ℝ)) : Option (List ℝ) :=
  if vertices.length < 4 then none
  else
    let n : ℝ := vertices.length
    let x_center : ℝ := (vertices.map Prod.fst).sum / n
    let y_center : ℝ := (vertices.map Prod.snd).sum / n
    let angles : List ℝ := vertices.map (fun v => atan2 (v.2 - y_center) (v.1 - x_center))
    let rot_angle : ℝ := rad2deg (angles.sum / n)
    let sorted_vertices : List (ℝ × ℝ) :=
      (List.insertionSort (fun a b => a.1 ≤ b.1) (angles.zip vertices)).map Prod.snd
    let b : ℕ → ℝ × ℝ := fun i => sorted_vertices.getD i (0, 0)
    let rect_w : ℝ := norm2 (b 1 - b 0) + norm2 (b 3 - b 2)
    let rect_h : ℝ := norm2 (b 2 - b 1) + norm2 (b 0 - b 3)
    some [x_center, y_center, rect_w, rect_h, rot_angle]

/-- The catalogue `misc.valid_pids_map`: an association list from sorted
part-id tuples to integer class labels, injected as an argument (spec §9
treats it as a read-only dependency; its concrete contents live outside
`src/`). -/
def VPM : Type := List (List ℤ × ℤ)

/-- The loop of `process_instances` (lines 89-106): for each group, sort its
part-id list in place (`pids.sort()`, stable ascending — the returned map
records the sorted lists), skip the group when the sorted tuple is not a
catalogue key, otherwise read the group's vertices from `vertices_map`
(a `defaultdict` read, which inserts `[]` for a missing key) and convert
them according to `dst_format`, raising `ValueError` on any other format.
Returns (instances, mutated pids_map, mutated vertices_map). -/
noncomputable def process_go (vpm : VPM) (dst_format : String) :
    List (ℤ × List ℤ) → List (ℤ × List (ℚ × ℚ)) →
    Except String (List (List ℝ) × List (ℤ × List ℤ) × List (ℤ × List (ℚ × ℚ)))
  | [], vertices_map => .ok ([], [], vertices_map)
  | (group_id, pids) :: rest, vertices_map =>
    let spids := List.insertionSort (fun a b => a ≤ b) pids
    match List.lookup spids vpm with
    | none =>
      (process_go vpm dst_format rest vertices_map).map
        (fun r => (r.1, (group_id, spids) :: r.2.1, r.2.2))
    | some label =>
      match dget vertices_map group_id with
      | (vertices, vm1) =>
        if dst_format = ("rrect") then
          match vertices_to_rrect (vertices.map (fun p => ((p.1 : ℝ), (p.2 : ℝ)))) with
          | none => .error ("IndexError")
          | some rrect =>
            (process_go vpm dst_format rest vm1).map
              (fun r => ((rrect ++ [(label : ℝ)]) :: r.1, (group_id, spids) :: r.2.1, r.2.2))
        else if dst_format = ("bbox") then
          match vertices_to_bbox vertices with
          | none => .error ("ValueError")
          | some bbox =>
            (process_go vpm dst_format rest vm1).map
              (fun r => ((bbox.map (fun (q : ℚ) => (q : ℝ)) ++ [(label : ℝ)]) :: r.1,
                (group_id, spids) :: r.2.1, r.2.2))
        else .error ("Unsupported format: " ++ dst_format)

/-- `process_instances(vertices_map, pids_map, dst_format)` with the catalogue
injected.  On success also returns the final (mutated) maps. -/
noncomputable def process_instances (vpm : VPM) (vertices_map : List (ℤ × List (ℚ × ℚ)))
    (pids_map : List (ℤ × List ℤ)) (dst_format : String) :
    Except String (List (List ℝ) × List (ℤ × List ℤ) × List (ℤ × List (ℚ × ℚ))) :=
  process_go vpm dst_format pids_map vertices_map

/-- Lines 113-118 of `filter_small_instances`: the width and height of one
instance according to `dst_format` (`instance[i]` raising `IndexError` on a
too-short list, any other format raising `ValueError`). -/
def instance_dims (inst : List ℝ) (dst_format : String) : Except String (ℝ × ℝ) :=
  if dst_format = ("rrect") then
    match inst.get? 2, inst.get? 3 with
    | some w, some h => .ok (w, h)
    | _, _ => .error ("IndexError")
  else if dst_format = ("bbox") then
    match inst.get? 0, inst.get? 1, inst.get? 2, inst.get? 3 with
    | some a, some b, some c, some d => .ok (c - a, d - b)
    | _, _, _, _ => .error ("IndexError")
  else .error ("Unsupported format: " ++ dst_format)

/-- `filter_small_instances` (lines 110-124): per instance, read its width and
height according to `dst_format`, and drop the instance when `w / img_w < t`
or `h / img_h < t` (logged, not raised). -/
noncomputable def filter_small_instances :
    List (List ℝ) → ℝ → ℝ → ℝ → String → Except String (List (List ℝ))
  | [], _, _, _, _ => .ok []
  | inst :: rest, img_w, img_h, filter_threshold, dst_format =>
    match instance_dims inst dst_format with
    | .error e => .error e
    | .ok (w, h) =>
      if w / img_w < filter_threshold ∨ h / img_h < filter_threshold then
        filter_small_instances rest img_w img_h filter_threshold dst_format
      else
        (filter_small_instances rest img_w img_h filter_threshold dst_format).map
          (fun l => inst :: l)

/-- The per-file body of `convert_save`'s traversal loop (lines 145-158):
parse, process, filter, and emit the record (path, surviving instances) when
at least one instance survived.  Serialization of numbers to text is outside
the embedding; an output line is modelled as the pair of the image-relative
path and the instance tuples written on it. -/
noncomputable def convert_go (vpm : VPM) (dst_format : String) (filter_threshold : ℝ) :
    List (String × LabelFile) → Except String (List (String × List (List ℝ)))
  | [] => .ok []
  | (path, file) :: rest =>
    match parse_label_file file with
    | .error e => .error e
    | .ok (vertices_map, pids_map, img_w, img_h) =>
      match process_instances vpm vertices_map pids_map dst_format with
      | .error e => .error e
      | .ok (instances, _, _) =>
        match filter_small_instances instances (img_w : ℝ) (img_h : ℝ)
            filter_threshold dst_format with
        | .error e => .error e
        | .ok kept =>
          (convert_go vpm dst_format filter_threshold rest).map
            (fun ls => if kept = [] then ls else (path, kept) :: ls)

/-- `convert_save` (lines 127-160) over already-parsed file contents: the
format dispatch that chooses the output file name happens before any file is
touched and raises `ValueError` for an unsupported `dst_format`; otherwise
the traversal loop runs over the given files. -/
noncomputable def convert_save (vpm : VPM) (files : List (String × LabelFile))
    (dst_format : String) (filter_threshold : ℝ) :
    Except String (List (String × List (List ℝ))) :=
  if dst_format = ("rrect") then convert_go vpm dst_format filter_threshold files
  else if dst_format = ("bbox") then convert_go vpm dst_format filter_threshold files
  else .error ("Unsupported format: " ++ dst_format)

section FoldMinMax

variable {α β : Type} [LinearOrder β] (f : α → β)

lemma foldl_min_le_init (l : List α) (b : β) :
    l.foldl (fun acc p => min acc (f p)) b ≤ b := by
  induction l generalizing b with
  | nil => exact le_refl b
  | cons x xs ih => exact le_trans (ih (min b (f x))) (min_le_left _ _)

lemma foldl_min_le_mem (l : List α) (b : β) :
    ∀ x ∈ l, l.foldl (fun acc p => min acc (f p)) b ≤ f x := by
  induction l generalizing b with
  | nil => intro x hx; simp at hx
  | cons y ys ih =>
    intro x hx
    rcases List.mem_cons.mp hx with h | h
    · subst h
      exact le_trans (foldl_min_le_init f ys (min b (f x))) (min_le_right _ _)
    · exact ih (min b (f y)) x h

lemma foldl_min_attained (l : List α) (b : β) :
    l.foldl (fun acc p => min acc (f p)) b = b ∨
      ∃ x ∈ l, l.foldl (fun acc p => min acc (f p)) b = f x := by
  induction l generalizing b with
  | nil => exact Or.inl rfl
  | cons y ys ih =>
    rcases ih (min b (f y)) with h | ⟨x, hx, h⟩
    · rcases min_choice b (f y) with hm | hm
      · exact Or.inl (by simpa [hm] using h)
      · exact Or.inr ⟨y, List.mem_cons_self y ys, by simpa [hm] using h⟩
    · exact Or.inr ⟨x, List.mem_cons_of_mem y hx, h⟩

lemma init_le_foldl_max (l : List α) (b : β) :
    b ≤ l.foldl (fun acc p => max acc (f p)) b := by
  induction l generalizing b with
  | nil => exact le_refl b
  | cons x xs ih => exact le_trans (le_max_left _ _) (ih (max b (f x)))

lemma mem_le_foldl_max (l : List α) (b : β) :
    ∀ x ∈ l, f x ≤ l.foldl (fun acc p => max acc (f p)) b := by
  induction l generalizing b with
  | nil => intro x hx; simp at hx
  | cons y ys ih =>
    intro x hx
    rcases List.mem_cons.mp hx with h | h
    · subst h
      exact le_trans (le_max_right _ _) (init_le_foldl_max f ys (max b (f x)))
    · exact ih (max b (f y)) x h

lemma foldl_max_attained (l : List α) (b : β) :
    l.foldl (fun acc p => max acc (f p)) b = b ∨
      ∃ x ∈ l, l.foldl (fun acc p => max acc (f p)) b = f x := by
  induction l generalizing b with
  | nil => exact Or.inl rfl
  | cons y ys ih =>
    rcases ih (max b (f y)) with h | ⟨x, hx, h⟩
    · rcases max_choice b (f y) with hm | hm
      · exact Or.inl (by simpa [hm] using h)
      · exact Or.inr ⟨y, List.mem_cons_self y ys, by simpa [hm] using h⟩
    · exact Or.inr ⟨x, List.mem_cons_of_mem y hx, h⟩

end FoldMinMax

/-- C4: for every non-empty vertex list, `vertices_to_bbox` returns
`some [x_min, y_min, x_max, y_max]` where the four values bound every input
point, satisfy `x_min ≤ x_max` and `y_min ≤ y_max`, and give the smallest
axis-aligned rectangle enclosing all input points. -/
theorem vertices_to_bbox_correct (vs : List (ℚ × ℚ)) (h : vs ≠ []) :
    ∃ a b c d, vertices_to_bbox vs = some [a, b, c, d] ∧
      (∀ p ∈ vs, a ≤ p.1 ∧ b ≤ p.2 ∧ p.1 ≤ c ∧ p.2 ≤ d) ∧
      a ≤ c ∧ b ≤ d ∧
      (∀ a1 b1 c1 d1, (∀ p ∈ vs, a1 ≤ p.1 ∧ b1 ≤ p.2 ∧ p.1 ≤ c1 ∧ p.2 ≤ d1) →
        a1 ≤ a ∧ b1 ≤ b ∧ c ≤ c1 ∧ d ≤ d1) := by
  rcases vs with _ | ⟨v, rest⟩
  · exact absurd rfl h
  refine ⟨_, _, _, _, rfl, ?_, ?_, ?_, ?_⟩
  · intro p hp
    rcases List.mem_cons.mp hp with hp | hp
    · subst hp
      exact ⟨foldl_min_le_init _ rest p.1, foldl_min_le_init _ rest p.2,
        init_le_foldl_max _ rest p.1, init_le_foldl_max _ rest p.2⟩
    · exact ⟨foldl_min_le_mem _ rest v.1 p hp, foldl_min_le_mem _ rest v.2 p hp,
        mem_le_foldl_max _ rest v.1 p hp, mem_le_foldl_max _ rest v.2 p hp⟩
  · exact le_trans (foldl_min_le_init _ rest v.1) (init_le_foldl_max _ rest v.1)
  · exact le_trans (foldl_min_le_init _ rest v.2) (init_le_foldl_max _ rest v.2)
  · intro a1 b1 c1 d1 hb
    have hv := hb v (List.mem_cons_self v rest)
    refine ⟨?_, ?_, ?_, ?_⟩
    · rcases foldl_min_attained (fun p : ℚ × ℚ => p.1) rest v.1 with hm | ⟨x, hx, hm⟩
      · rw [hm]; exact hv.1
      · rw [hm]; exact (hb x (List.mem_cons_of_mem v hx)).1
    · rcases foldl_min_attained (fun p : ℚ × ℚ => p.2) rest v.2 with hm | ⟨x, hx, hm⟩
      · rw [hm]; exact hv.2.1
      · rw [hm]; exact (hb x (List.mem_cons_of_mem v hx)).2.1
    · rcases foldl_max_attained (fun p : ℚ × ℚ => p.1) rest v.1 with hm | ⟨x, hx, hm⟩
      · rw [hm]; exact hv.2.2.1
      · rw [hm]; exact (hb x (List.mem_cons_of_mem v hx)).2.2.1
    · rcases foldl_max_attained (fun p : ℚ × ℚ => p.2) rest v.2 with hm | ⟨x, hx, hm⟩
      · rw [hm]; exact hv.2.2.2
      · rw [hm]; exact (hb x (List.mem_cons_of_mem v hx)).2.2.2

/-- Witness for C4 at the concrete vertex list `[(1, 2), (3, 0)]`. -/
theorem vertices_to_bbox_correct_witness :
    ([((1 : ℚ), (2 : ℚ)), (3, 0)] ≠ []) ∧
    (∃ a b c d, vertices_to_bbox [((1 : ℚ), (2 : ℚ)), (3, 0)] = some [a, b, c, d] ∧
      (∀ p ∈ [((1 : ℚ), (2 : ℚ)), (3, 0)], a ≤ p.1 ∧ b ≤ p.2 ∧ p.1 ≤ c ∧ p.2 ≤ d) ∧
      a ≤ c ∧ b ≤ d ∧
      (∀ a1 b1 c1 d1,
        (∀ p ∈ [((1 : ℚ), (2 : ℚ)), (3, 0)], a1 ≤ p.1 ∧ b1 ≤ p.2 ∧ p.1 ≤ c1 ∧ p.2 ≤ d1) →
        a1 ≤ a ∧ b1 ≤ b ∧ c ≤ c1 ∧ d ≤ d1)) :=
  ⟨by decide, vertices_to_bbox_correct _ (by decide)⟩

/-- For a fixed instance list and thresholds `t1 ≤ t2`, the filter at `t2`
fails with the same error as at `t1`, or both succeed and the survivors at
`t2` form a sublist of the survivors at `t1` (raising the threshold only
removes instances). -/
lemma filter_small_instances_sublist (insts : List (List ℝ)) (W H t1 t2 : ℝ)
    (fmt : String) (h : t1 ≤ t2) :
    (∃ e, filter_small_instances insts W H t1 fmt = .error e ∧
          filter_small_instances insts W H t2 fmt = .error e) ∨
    (∃ l1 l2, filter_small_instances insts W H t1 fmt = .ok l1 ∧
          filter_small_instances insts W H t2 fmt = .ok l2 ∧ l2.Sublist l1) := by
  induction insts with
  | nil => exact Or.inr ⟨[], [], rfl, rfl, List.Sublist.refl []⟩
  | cons inst rest ih =>
    simp only [filter_small_instances]
    rcases hd : instance_dims inst fmt with e | ⟨w, ht⟩
    · exact Or.inl ⟨e, rfl, rfl⟩
    · dsimp only
      by_cases h1 : w / W < t1 ∨ ht / H < t1
      · have h2 : w / W < t2 ∨ ht / H < t2 := by
          rcases h1 with h1 | h1
          · exact Or.inl (lt_of_lt_of_le h1 h)
          · exact Or.inr (lt_of_lt_of_le h1 h)
        rw [if_pos h1, if_pos h2]
        exact ih
      · rw [if_neg h1]
        by_cases h2 : w / W < t2 ∨ ht / H < t2
        · rw [if_pos h2]
          rcases ih with ⟨e, he1, he2⟩ | ⟨l1, l2, ho1, ho2, hs⟩
          · exact Or.inl ⟨e, by rw [he1]; rfl, he2⟩
          · exact Or.inr ⟨inst :: l1, l2, by rw [ho1]; rfl, ho2,
              List.Sublist.cons inst hs⟩
        · rw [if_neg h2]
          rcases ih with ⟨e, he1, he2⟩ | ⟨l1, l2, ho1, ho2, hs⟩
          · exact Or.inl ⟨e, by rw [he1]; rfl, by rw [he2]; rfl⟩
          · exact Or.inr ⟨inst :: l1, inst :: l2, by rw [ho1]; rfl,
              by rw [ho2]; rfl, List.Sublist.cons₂ inst hs⟩

/-- C6: for a fixed instance list, image size and format, raising the
threshold from `t1` to `t2 ≥ t1` never increases the number of surviving
instances (an erroring call is read as zero survivors on both sides). -/
theorem filter_small_instances_monotone (insts : List (List ℝ)) (W H t1 t2 : ℝ)
    (fmt : String) (h : t1 ≤ t2) :
    ((filter_small_instances insts W H t2 fmt).toOption.getD []).length ≤
      ((filter_small_instances insts W H t1 fmt).toOption.getD []).length := by
  rcases filter_small_instances_sublist insts W H t1 t2 fmt h with
    ⟨e, he1, he2⟩ | ⟨l1, l2, ho1, ho2, hs⟩
  · rw [he1, he2]
  · rw [ho1, ho2]
    exact hs.length_le

/-- Witness for C6 at a concrete instance list and thresholds 1/100 ≤ 1/2. -/
theorem filter_small_instances_monotone_witness :
    ((1 : ℝ) / 100 ≤ 1 / 2) ∧
    ((filter_small_instances [[0, 0, 10, 10]] 100 100 (1 / 2) ("bbox")).toOption.getD
        []).length ≤
      ((filter_small_instances [[0, 0, 10, 10]] 100 100 (1 / 100) ("bbox")).toOption.getD
        []).length :=
  ⟨by norm_num, filter_small_instances_monotone [[0, 0, 10, 10]] 100 100 (1 / 100)
    (1 / 2) ("bbox") (by norm_num)⟩

/-- The width of an instance as the C7 claim states it: the stored third
entry for `rrect`, `x_max - x_min` for `bbox`. -/
noncomputable def claim_width (dst_format : String) (inst : List ℝ) : ℝ :=
  if dst_format = ("rrect") then inst.getD 2 0 else inst.getD 2 0 - inst.getD 0 0

/-- The height of an instance as the C7 claim states it: the stored fourth
entry for `rrect`, `y_max - y_min` for `bbox`. -/
noncomputable def claim_height (dst_format : String) (inst : List ℝ) : ℝ :=
  if dst_format = ("rrect") then inst.getD 3 0 else inst.getD 3 0 - inst.getD 1 0

lemma exists_cons4 {α : Type} (l : List α) (h : 4 ≤ l.length) :
    ∃ a b c d tl, l = a :: b :: c :: d :: tl := by
  rcases l with _ | ⟨a, _ | ⟨b, _ | ⟨c, _ | ⟨d, tl⟩⟩⟩⟩
  · simp at h
  · simp at h
  · norm_num at h
  · norm_num at h
  · exact ⟨a, b, c, d, tl, rfl⟩

/-- C7: on well-formed instances (at least 4 entries each) and a supported
format, `filter_small_instances` succeeds and keeps exactly the instances for
which neither `width / img_w < t` nor `height / img_h < t` holds — i.e. an
instance is dropped iff either relative dimension is below the threshold. -/
theorem filter_small_instances_drop_iff (insts : List (List ℝ)) (W H t : ℝ)
    (fmt : String) (hfmt : fmt = ("bbox") ∨ fmt = ("rrect"))
    (hlen : ∀ inst ∈ insts, 4 ≤ inst.length) :
    filter_small_instances insts W H t fmt =
      .ok (insts.filter (fun inst =>
        decide (¬(claim_width fmt inst / W < t ∨ claim_height fmt inst / H < t)))) := by
  induction insts with
  | nil => rfl
  | cons inst rest ih =>
    obtain ⟨a, b, c, d, tl, rfl⟩ := exists_cons4 inst (hlen inst (List.mem_cons_self _ _))
    have hrest := ih (fun i hi => hlen i (List.mem_cons_of_mem _ hi))
    have hdims : instance_dims (a :: b :: c :: d :: tl) fmt =
        .ok (claim_width fmt (a :: b :: c :: d :: tl),
          claim_height fmt (a :: b :: c :: d :: tl)) := by
      rcases hfmt with hf | hf <;> subst hf <;>
        simp [instance_dims, claim_width, claim_height]
    simp only [filter_small_instances, hdims]
    rw [List.filter_cons]
    by_cases hp : claim_width fmt (a :: b :: c :: d :: tl) / W < t ∨
        claim_height fmt (a :: b :: c :: d :: tl) / H < t
    · rw [if_pos hp, if_neg (by simp only [decide_eq_true_eq]; exact not_not_intro hp)]
      exact hrest
    · rw [if_neg hp, if_pos (by simp only [decide_eq_true_eq]; exact hp), hrest]
      rfl

/-- Witness for C7 at a concrete bbox instance list. -/
theorem filter_small_instances_drop_iff_witness :
    (("bbox" : String) = ("bbox") ∨ ("bbox" : String) = ("rrect")) ∧
    (∀ inst ∈ [[(0 : ℝ), 0, 50, 60, 1]], 4 ≤ inst.length) ∧
    filter_small_instances [[(0 : ℝ), 0, 50, 60, 1]] 100 100 (1 / 200) ("bbox") =
      .ok ([[(0 : ℝ), 0, 50, 60, 1]].filter (fun inst =>
        decide (¬(claim_width ("bbox") inst / 100 < 1 / 200 ∨
          claim_height ("bbox") inst / 100 < 1 / 200)))) :=
  ⟨Or.inl rfl, by norm_num,
    filter_small_instances_drop_iff [[(0 : ℝ), 0, 50, 60, 1]] 100 100 (1 / 200) ("bbox")
      (Or.inl rfl) (by norm_num)⟩

/-- The in-place `pids.sort()` applied to one map entry. -/
def sorted_pids (g : ℤ × List ℤ) : ℤ × List ℤ :=
  (g.1, List.insertionSort (fun a b => a ≤ b) g.2)

/-- The geometry `process_instances` computes for one accepted group's
vertices under a given format (`none` both for the raising geometry cases and
for unsupported formats). -/
noncomputable def geomOf (dst_format : String) (vertices : List (ℚ × ℚ)) : Option (List ℝ) :=
  if dst_format = ("rrect") then
    vertices_to_rrect (vertices.map (fun p => ((p.1 : ℝ), (p.2 : ℝ))))
  else if dst_format = ("bbox") then
    (vertices_to_bbox vertices).map (fun l => l.map (fun (q : ℚ) => (q : ℝ)))
  else none

/-- What one group adds to the instance list of `process_instances`: `none`
when its sorted part-id tuple is not a catalogue key, otherwise the group's
geometry with the catalogue's class label appended. -/
noncomputable def contribution (vpm : VPM) (vm : List (ℤ × List (ℚ × ℚ)))
    (dst_format : String) (g : ℤ × List ℤ) : Option (List ℝ) :=
  (List.lookup (List.insertionSort (fun a b => a ≤ b) g.2) vpm).bind
    (fun label => (geomOf dst_format ((vm.lookup g.1).getD [])).map
      (fun xs => xs ++ [(label : ℝ)]))

lemma dget_spec {α : Type} (m : List (ℤ × List α)) (k : ℤ) :
    (dget m k).1 = (m.lookup k).getD [] ∧
    ∀ j, ((dget m k).2.lookup j).getD [] = (m.lookup j).getD [] := by
  unfold dget
  cases h : m.lookup k with
  | some v => exact ⟨rfl, fun j => rfl⟩
  | none =>
    refine ⟨rfl, fun j => ?_⟩
    show ((m ++ [(k, [])]).lookup j).getD [] = (m.lookup j).getD []
    rw [List.lookup_append]
    by_cases hj : j = k
    · subst hj
      rw [h]
      simp
    · have hbe : (j == k) = false := by
        simp [hj]
      have hk : List.lookup j ([(k, ([] : List α))]) = none := by
        simp [List.lookup, hbe]
      rw [hk]
      cases m.lookup j <;> rfl

lemma dget_of_lookup {α : Type} (m : List (ℤ × List α)) (k : ℤ) (v : List α)
    (h : m.lookup k = some v) : dget m k = (v, m) := by
  unfold dget
  rw [h]

lemma contribution_congr (vpm : VPM) (fmt : String) (vm vm1 : List (ℤ × List (ℚ × ℚ)))
    (h : ∀ j, (vm1.lookup j).getD [] = (vm.lookup j).getD []) (g : ℤ × List ℤ) :
    contribution vpm vm1 fmt g = contribution vpm vm fmt g := by
  unfold contribution
  rw [h g.1]

lemma process_go_ok (vpm : VPM) (fmt : String) (hfmt : fmt = ("bbox") ∨ fmt = ("rrect")) :
    ∀ (pm : List (ℤ × List ℤ)) (vm : List (ℤ × List (ℚ × ℚ))),
    (∀ g ∈ pm, (List.lookup (List.insertionSort (fun a b => a ≤ b) g.2) vpm).isSome = true →
      (geomOf fmt ((vm.lookup g.1).getD [])).isSome = true) →
    ∃ vm1, process_go vpm fmt pm vm =
        .ok (pm.filterMap (contribution vpm vm fmt), pm.map sorted_pids, vm1) ∧
      ∀ j, (vm1.lookup j).getD [] = (vm.lookup j).getD [] := by
  intro pm
  induction pm with
  | nil =>
    intro vm _
    exact ⟨vm, rfl, fun j => rfl⟩
  | cons g rest ih =>
    intro vm hgeom
    obtain ⟨gid, pids⟩ := g
    simp only [process_go]
    cases hl : List.lookup (List.insertionSort (fun a b => a ≤ b) pids) vpm with
    | none =>
      obtain ⟨vm1, heq, hpres⟩ :=
        ih vm (fun g hg hs => hgeom g (List.mem_cons_of_mem _ hg) hs)
      refine ⟨vm1, ?_, hpres⟩
      rw [heq]
      have hc : contribution vpm vm fmt (gid, pids) = none := by
        simp [contribution, hl]
      rw [List.filterMap_cons_none hc]
      rfl
    | some label =>
      have hgood := hgeom (gid, pids) (List.mem_cons_self _ _) (by rw [hl]; rfl)
      rcases hdg : dget vm gid with ⟨vs, vmm⟩
      have hvs : vs = (vm.lookup gid).getD [] := by
        have h1 := (dget_spec vm gid).1
        rw [hdg] at h1
        exact h1
      have hpres1 : ∀ j, (vmm.lookup j).getD [] = (vm.lookup j).getD [] := by
        intro j
        have h1 := (dget_spec vm gid).2 j
        rw [hdg] at h1
        exact h1
      have hrest : ∀ g ∈ rest,
          (List.lookup (List.insertionSort (fun a b => a ≤ b) g.2) vpm).isSome = true →
          (geomOf fmt ((vmm.lookup g.1).getD [])).isSome = true := by
        intro g hg hs
        rw [hpres1 g.1]
        exact hgeom g (List.mem_cons_of_mem _ hg) hs
      obtain ⟨vm2, heq, hpres2⟩ := ih vmm hrest
      have hfm : List.filterMap (contribution vpm vmm fmt) rest =
          List.filterMap (contribution vpm vm fmt) rest :=
        List.filterMap_congr (fun g _ => contribution_congr vpm fmt vm vmm hpres1 g)
      refine ⟨vm2, ?_, fun j => (hpres2 j).trans (hpres1 j)⟩
      dsimp only
      rcases hfmt with hf | hf <;> subst hf
      · -- bbox
        rw [if_neg (by decide), if_pos rfl]
        have hg2 : geomOf ("bbox") ((vm.lookup gid).getD []) =
            (vertices_to_bbox ((vm.lookup gid).getD [])).map
              (fun l => l.map (fun (q : ℚ) => (q : ℝ))) := by
          unfold geomOf
          rw [if_neg (by decide), if_pos rfl]
        rw [hg2] at hgood
        obtain ⟨bb, hbb⟩ := Option.isSome_iff_exists.mp hgood
        obtain ⟨bb0, hbb0, hcast⟩ := Option.map_eq_some'.mp hbb
        rw [hvs, hbb0]
        dsimp only
        rw [heq]
        have hcontr : contribution vpm vm ("bbox") (gid, pids) =
            some (bb0.map (fun (q : ℚ) => (q : ℝ)) ++ [(label : ℝ)]) := by
          unfold contribution
          rw [hl]
          dsimp only
          rw [hg2, hbb0]
          rfl
        rw [List.filterMap_cons_some hcontr, ← hfm]
        rfl
      · -- rrect
        rw [if_pos rfl]
        have hg2 : geomOf ("rrect") ((vm.lookup gid).getD []) =
            vertices_to_rrect (((vm.lookup gid).getD []).map
              (fun p => ((p.1 : ℝ), (p.2 : ℝ)))) := by
          unfold geomOf
          rw [if_pos rfl]
        rw [hg2] at hgood
        obtain ⟨rr, hrr⟩ := Option.isSome_iff_exists.mp hgood
        rw [hvs, hrr]
        dsimp only
        rw [heq]
        have hcontr : contribution vpm vm ("rrect") (gid, pids) =
            some (rr ++ [(label : ℝ)]) := by
          unfold contribution
          rw [hl]
          dsimp only
          rw [hg2, hrr]
          rfl
        rw [List.filterMap_cons_some hcontr, ← hfm]
        rfl

/-- C5 (counterexample part): a group whose sorted part-id tuple *is* in the
catalogue but whose vertex list is too short for the requested geometry makes
`process_instances` raise instead of contributing a labelled instance. -/
theorem process_instances_short_group_raises :
    process_instances [([1], 5)] [(0, [(0, 0)])] [(0, [1])] ("rrect") =
      .error ("IndexError") := rfl

/-- C5 (amended): acceptance is decided solely by catalogue membership of the
sorted part-id tuple; provided every accepted group's geometry computation
succeeds, `process_instances` returns exactly the accepted groups' geometries
with the catalogue labels appended, and a group contributes iff its sorted
tuple is a catalogue key. -/
theorem process_instances_accepts_iff (vpm : VPM) (vm : List (ℤ × List (ℚ × ℚ)))
    (pm : List (ℤ × List ℤ)) (fmt : String)
    (hfmt : fmt = ("bbox") ∨ fmt = ("rrect"))
    (hgeom : ∀ g ∈ pm,
      (List.lookup (List.insertionSort (fun a b => a ≤ b) g.2) vpm).isSome = true →
      (geomOf fmt ((vm.lookup g.1).getD [])).isSome = true) :
    ∃ vm1, process_instances vpm vm pm fmt =
        .ok (pm.filterMap (contribution vpm vm fmt), pm.map sorted_pids, vm1) ∧
      ∀ g ∈ pm, ((contribution vpm vm fmt g).isSome = true ↔
        (List.lookup (List.insertionSort (fun a b => a ≤ b) g.2) vpm).isSome = true) := by
  obtain ⟨vm1, heq, _⟩ := process_go_ok vpm fmt hfmt pm vm hgeom
  refine ⟨vm1, heq, fun g hg => ?_⟩
  cases hl : List.lookup (List.insertionSort (fun a b => a ≤ b) g.2) vpm with
  | none =>
    have hc : contribution vpm vm fmt g = none := by
      simp [contribution, hl]
    rw [hc]
    exact Iff.rfl
  | some label =>
    have hs : (List.lookup (List.insertionSort (fun a b => a ≤ b) g.2) vpm).isSome = true := by
      rw [hl]
      rfl
    obtain ⟨geo, hging⟩ := Option.isSome_iff_exists.mp (hgeom g hg hs)
    have hc : contribution vpm vm fmt g = some (geo ++ [(label : ℝ)]) := by
      unfold contribution
      rw [hl, Option.some_bind, hging, Option.map_some']
    rw [hc]
    exact Iff.rfl

/-- Witness for C5 (amended) at a concrete two-group map: group 0's sorted
tuple `[1, 2]` is in the catalogue, group 1's tuple `[9]` is not. -/
theorem process_instances_accepts_iff_witness :
    ((("bbox") : String) = ("bbox") ∨ (("bbox") : String) = ("rrect")) ∧
    (∀ g ∈ [((0 : ℤ), [(2 : ℤ), 1]), (1, [9])],
      (List.lookup (List.insertionSort (fun a b => a ≤ b) g.2)
        ([([(1 : ℤ), 2], (3 : ℤ))] : VPM)).isSome = true →
      (geomOf ("bbox")
        ((List.lookup g.1 [((0 : ℤ), [((0 : ℚ), (0 : ℚ)), (3, 4)]), (1, [(5, 5)])]).getD
          [])).isSome = true) ∧
    (∃ vm1, process_instances ([([(1 : ℤ), 2], (3 : ℤ))] : VPM)
        [((0 : ℤ), [((0 : ℚ), (0 : ℚ)), (3, 4)]), (1, [(5, 5)])]
        [((0 : ℤ), [(2 : ℤ), 1]), (1, [9])] ("bbox") =
        .ok (([((0 : ℤ), [(2 : ℤ), 1]), (1, [9])]).filterMap
            (contribution ([([(1 : ℤ), 2], (3 : ℤ))] : VPM)
              [((0 : ℤ), [((0 : ℚ), (0 : ℚ)), (3, 4)]), (1, [(5, 5)])] ("bbox")),
          ([((0 : ℤ), [(2 : ℤ), 1]), (1, [9])]).map sorted_pids, vm1) ∧
      ∀ g ∈ [((0 : ℤ), [(2 : ℤ), 1]), (1, [9])],
        ((contribution ([([(1 : ℤ), 2], (3 : ℤ))] : VPM)
            [((0 : ℤ), [((0 : ℚ), (0 : ℚ)), (3, 4)]), (1, [(5, 5)])] ("bbox") g).isSome = true ↔
          (List.lookup (List.insertionSort (fun a b => a ≤ b) g.2)
            ([([(1 : ℤ), 2], (3 : ℤ))] : VPM)).isSome = true)) :=
  ⟨Or.inl rfl, by decide,
    process_instances_accepts_iff _ _ _ _ (Or.inl rfl) (by decide)⟩

lemma process_go_unsupported (vpm : VPM) (fmt : String)
    (h1 : fmt ≠ ("rrect")) (h2 : fmt ≠ ("bbox")) :
    ∀ (pm : List (ℤ × List ℤ)) (vm : List (ℤ × List (ℚ × ℚ))),
    (∃ g ∈ pm,
      (List.lookup (List.insertionSort (fun a b => a ≤ b) g.2) vpm).isSome = true) →
    process_go vpm fmt pm vm = .error ("Unsupported format: " ++ fmt) := by
  intro pm
  induction pm with
  | nil =>
    intro vm h
    obtain ⟨g, hg, _⟩ := h
    simp at hg
  | cons g rest ih =>
    intro vm hex
    obtain ⟨gid, pids⟩ := g
    simp only [process_go]
    cases hl : List.lookup (List.insertionSort (fun a b => a ≤ b) pids) vpm with
    | none =>
      have hex2 : ∃ g ∈ rest,
          (List.lookup (List.insertionSort (fun a b => a ≤ b) g.2) vpm).isSome = true := by
        obtain ⟨g, hg, hs⟩ := hex
        rcases List.mem_cons.mp hg with heq | hg2
        · subst heq
          rw [hl] at hs
          simp at hs
        · exact ⟨g, hg2, hs⟩
      rw [ih vm hex2]
      rfl
    | some label =>
      rcases hdg : dget vm gid with ⟨vs, vmm⟩
      dsimp only
      rw [if_neg h1, if_neg h2]

/-- C8 (amended): an unsupported `dst_format` makes `convert_save` raise the
format error up front, before touching any file; `process_instances` raises
the same error exactly when its loop reaches an accepted group — in
particular whenever some group's sorted tuple is a catalogue key. -/
theorem unsupported_format_raises (vpm : VPM) (fmt : String) (t : ℝ)
    (h1 : fmt ≠ ("rrect")) (h2 : fmt ≠ ("bbox")) :
    (∀ files, convert_save vpm files fmt t = .error ("Unsupported format: " ++ fmt)) ∧
    ∀ vm pm, (∃ g ∈ pm,
        (List.lookup (List.insertionSort (fun a b => a ≤ b) g.2) vpm).isSome = true) →
      process_instances vpm vm pm fmt = .error ("Unsupported format: " ++ fmt) := by
  constructor
  · intro files
    unfold convert_save
    rw [if_neg h1, if_neg h2]
  · intro vm pm hex
    exact process_go_unsupported vpm fmt h1 h2 pm vm hex

/-- C8 (counterexample part): with no accepted group, `process_instances`
returns normally even for an unsupported format — it does not raise. -/
theorem process_instances_unsupported_no_raise :
    process_instances [] [] [(0, [9])] ("polygon") = .ok ([], [(0, [9])], []) := rfl

/-- Witness for C8 at `dst_format = "polygon"` with one accepted group. -/
theorem unsupported_format_raises_witness :
    ((("polygon") : String) ≠ ("rrect")) ∧ ((("polygon") : String) ≠ ("bbox")) ∧
    convert_save ([([(1 : ℤ)], (2 : ℤ))] : VPM) [] ("polygon") 0 =
      .error ("Unsupported format: " ++ ("polygon")) ∧
    process_instances ([([(1 : ℤ)], (2 : ℤ))] : VPM) [((0 : ℤ), [((0 : ℚ), (0 : ℚ))])]
        [((0 : ℤ), [(1 : ℤ)])] ("polygon") =
      .error ("Unsupported format: " ++ ("polygon")) :=
  ⟨by decide, by decide,
    (unsupported_format_raises _ ("polygon") 0 (by decide) (by decide)).1 [],
    (unsupported_format_raises _ ("polygon") 0 (by decide) (by decide)).2 _ _
      ⟨((0 : ℤ), [(1 : ℤ)]), by decide, by decide⟩⟩

lemma process_go_state (vpm : VPM) (fmt : String) :
    ∀ (pm : List (ℤ × List ℤ)) (vm : List (ℤ × List (ℚ × ℚ)))
      (insts : List (List ℝ)) (pm1 : List (ℤ × List ℤ)) (vm1 : List (ℤ × List (ℚ × ℚ))),
    (∀ g ∈ pm,
      (List.lookup (List.insertionSort (fun a b => a ≤ b) g.2) vpm).isSome = true →
      (vm.lookup g.1).isSome = true) →
    process_go vpm fmt pm vm = .ok (insts, pm1, vm1) →
    pm1 = pm.map sorted_pids ∧ vm1 = vm := by
  intro pm
  induction pm with
  | nil =>
    intro vm insts pm1 vm1 _ hok
    simp only [process_go, Except.ok.injEq, Prod.mk.injEq] at hok
    exact ⟨hok.2.1.symm, hok.2.2.symm⟩
  | cons g rest ih =>
    intro vm insts pm1 vm1 hkeys hok
    obtain ⟨gid, pids⟩ := g
    simp only [process_go] at hok
    cases hl : List.lookup (List.insertionSort (fun a b => a ≤ b) pids) vpm with
    | none =>
      rw [hl] at hok
      cases hrec : process_go vpm fmt rest vm with
      | error e =>
        rw [hrec] at hok
        simp [Except.map] at hok
      | ok r =>
        obtain ⟨i2, p2, v2⟩ := r
        rw [hrec] at hok
        simp only [Except.map, Except.ok.injEq, Prod.mk.injEq] at hok
        obtain ⟨h1, h2, h3⟩ := hok
        obtain ⟨hp, hv⟩ := ih vm i2 p2 v2
          (fun g hg hs => hkeys g (List.mem_cons_of_mem _ hg) hs) hrec
        subst h2 h3
        exact ⟨by rw [hp]; rfl, hv⟩
    | some label =>
      rw [hl] at hok
      have hks : (vm.lookup gid).isSome = true :=
        hkeys (gid, pids) (List.mem_cons_self _ _) (by rw [hl]; rfl)
      obtain ⟨v, hv⟩ := Option.isSome_iff_exists.mp hks
      rw [dget_of_lookup vm gid v hv] at hok
      dsimp only at hok
      by_cases hfr : fmt = ("rrect")
      · rw [if_pos hfr] at hok
        cases hrr : vertices_to_rrect (v.map (fun p => ((p.1 : ℝ), (p.2 : ℝ)))) with
        | none =>
          rw [hrr] at hok
          simp at hok
        | some rr =>
          rw [hrr] at hok
          cases hrec : process_go vpm fmt rest vm with
          | error e =>
            rw [hrec] at hok
            simp [Except.map] at hok
          | ok r =>
            obtain ⟨i2, p2, v2⟩ := r
            rw [hrec] at hok
            simp only [Except.map, Except.ok.injEq, Prod.mk.injEq] at hok
            obtain ⟨h1, h2, h3⟩ := hok
            obtain ⟨hp, hvv⟩ := ih vm i2 p2 v2
              (fun g hg hs => hkeys g (List.mem_cons_of_mem _ hg) hs) hrec
            subst h2 h3
            exact ⟨by rw [hp]; rfl, hvv⟩
      · rw [if_neg hfr] at hok
        by_cases hfb : fmt = ("bbox")
        · rw [if_pos hfb] at hok
          cases hbb : vertices_to_bbox v with
          | none =>
            rw [hbb] at hok
            simp at hok
          | some bb =>
            rw [hbb] at hok
            cases hrec : process_go vpm fmt rest vm with
            | error e =>
              rw [hrec] at hok
              simp [Except.map] at hok
            | ok r =>
              obtain ⟨i2, p2, v2⟩ := r
              rw [hrec] at hok
              simp only [Except.map, Except.ok.injEq, Prod.mk.injEq] at hok
              obtain ⟨h1, h2, h3⟩ := hok
              obtain ⟨hp, hvv⟩ := ih vm i2 p2 v2
                (fun g hg hs => hkeys g (List.mem_cons_of_mem _ hg) hs) hrec
              subst h2 h3
              exact ⟨by rw [hp]; rfl, hvv⟩
        · rw [if_neg hfb] at hok
          simp at hok

/-- C10: a successful `process_instances` call leaves the vertices map
unchanged (under the parser invariant that every group appearing in the
part-id map has an entry in the vertices map), while the part-id map comes
back with every group's list replaced by its ascending in-place sort —
including the lists of rejected groups. -/
theorem process_instances_mutation (vpm : VPM) (vm : List (ℤ × List (ℚ × ℚ)))
    (pm : List (ℤ × List ℤ)) (fmt : String) (insts : List (List ℝ))
    (pm1 : List (ℤ × List ℤ)) (vm1 : List (ℤ × List (ℚ × ℚ)))
    (hkeys : ∀ g ∈ pm,
      (List.lookup (List.insertionSort (fun a b => a ≤ b) g.2) vpm).isSome = true →
      (vm.lookup g.1).isSome = true)
    (hok : process_instances vpm vm pm fmt = .ok (insts, pm1, vm1)) :
    pm1 = pm.map sorted_pids ∧ (∀ g ∈ pm1, List.Sorted (fun a b => a ≤ b) g.2) ∧
      vm1 = vm := by
  obtain ⟨h1, h2⟩ := process_go_state vpm fmt pm vm insts pm1 vm1 hkeys hok
  refine ⟨h1, ?_, h2⟩
  intro g hg
  rw [h1] at hg
  obtain ⟨g0, hg0, rfl⟩ := List.mem_map.mp hg
  exact List.sorted_insertionSort _ _

/-- Witness for C10: one accepted group with unsorted part-ids `[2, 1]`. -/
theorem process_instances_mutation_witness :
    (∀ g ∈ [((0 : ℤ), [(2 : ℤ), 1])],
      (List.lookup (List.insertionSort (fun a b => a ≤ b) g.2)
        ([([(1 : ℤ), 2], (3 : ℤ))] : VPM)).isSome = true →
      (List.lookup g.1 [((0 : ℤ), [((0 : ℚ), (0 : ℚ)), (3, 4)])]).isSome = true) ∧
    ([((0 : ℤ), [(1 : ℤ), 2])] = [((0 : ℤ), [(2 : ℤ), 1])].map sorted_pids ∧
      (∀ g ∈ [((0 : ℤ), [(1 : ℤ), 2])], List.Sorted (fun a b => a ≤ b) g.2) ∧
      [((0 : ℤ), [((0 : ℚ), (0 : ℚ)), (3, 4)])] =
        [((0 : ℤ), [((0 : ℚ), (0 : ℚ)), (3, 4)])]) :=
  ⟨by decide,
    process_instances_mutation ([([(1 : ℤ), 2], (3 : ℤ))] : VPM)
      [((0 : ℤ), [((0 : ℚ), (0 : ℚ)), (3, 4)])] [((0 : ℤ), [(2 : ℤ), 1])] ("bbox")
      [([(0 : ℚ), 0, 3, 4].map (fun (q : ℚ) => (q : ℝ)) ++ [((3 : ℤ) : ℝ)])]
      [((0 : ℤ), [(1 : ℤ), 2])] [((0 : ℤ), [((0 : ℚ), (0 : ℚ)), (3, 4)])]
      (by decide) rfl⟩

lemma atan2_mm : atan2 (-100 : ℝ) (-100) = Real.pi / 4 - Real.pi := by
  unfold atan2
  rw [if_neg (by norm_num), if_neg (by norm_num), if_pos (by norm_num)]
  norm_num [Real.arctan_one]

lemma atan2_mp : atan2 (-100 : ℝ) 100 = -(Real.pi / 4) := by
  unfold atan2
  rw [if_pos (by norm_num)]
  norm_num [Real.arctan_neg, Real.arctan_one]

lemma atan2_pp : atan2 (100 : ℝ) 100 = Real.pi / 4 := by
  unfold atan2
  rw [if_pos (by norm_num)]
  norm_num [Real.arctan_one]

lemma atan2_pm : atan2 (100 : ℝ) (-100) = -(Real.pi / 4) + Real.pi := by
  unfold atan2
  rw [if_neg (by norm_num), if_pos (by norm_num)]
  norm_num [Real.arctan_neg, Real.arctan_one]

/-- Evaluation of `vertices_to_rrect` on an explicit 4-vertex list whose
angles about the centroid are already in weakly increasing input order. -/
lemma vertices_to_rrect_eval (v0 v1 v2 v3 : ℝ × ℝ) (cx cy a0 a1 a2 a3 : ℝ)
    (hcx : (v0.1 + (v1.1 + (v2.1 + (v3.1 + 0)))) / 4 = cx)
    (hcy : (v0.2 + (v1.2 + (v2.2 + (v3.2 + 0)))) / 4 = cy)
    (h0 : atan2 (v0.2 - cy) (v0.1 - cx) = a0)
    (h1 : atan2 (v1.2 - cy) (v1.1 - cx) = a1)
    (h2 : atan2 (v2.2 - cy) (v2.1 - cx) = a2)
    (h3 : atan2 (v3.2 - cy) (v3.1 - cx) = a3)
    (s01 : a0 ≤ a1) (s02 : a0 ≤ a2) (s03 : a0 ≤ a3)
    (s12 : a1 ≤ a2) (s13 : a1 ≤ a3) (s23 : a2 ≤ a3) :
    vertices_to_rrect [v0, v1, v2, v3] =
      some [cx, cy, norm2 (v1 - v0) + norm2 (v3 - v2),
        norm2 (v2 - v1) + norm2 (v0 - v3),
        rad2deg ((a0 + (a1 + (a2 + (a3 + 0)))) / 4)] := by
  have hsorted : List.Sorted (fun (a : ℝ × (ℝ × ℝ)) (b : ℝ × (ℝ × ℝ)) => a.1 ≤ b.1)
      [(a0, v0), (a1, v1), (a2, v2), (a3, v3)] := by
    refine (List.sorted_cons).mpr ⟨?_, (List.sorted_cons).mpr ⟨?_,
      (List.sorted_cons).mpr ⟨?_, List.sorted_singleton _⟩⟩⟩
    · intro b hb
      fin_cases hb
      · exact s01
      · exact s02
      · exact s03
    · intro b hb
      fin_cases hb
      · exact s12
      · exact s13
    · intro b hb
      fin_cases hb
      exact s23
  simp only [vertices_to_rrect, List.length_cons, List.length_nil, List.map_cons,
    List.map_nil, List.sum_cons, List.sum_nil,
    show ((0 : ℕ) + 1 + 1 + 1 + 1) = (4 : ℕ) from rfl, Nat.cast_ofNat]
  rw [if_neg (by norm_num)]
  rw [hcx, hcy, h0, h1, h2, h3]
  simp only [List.zip_cons_cons, List.zip_nil_right]
  rw [List.Sorted.insertionSort_eq hsorted]
  simp only [List.map_cons, List.map_nil, List.getD_cons_succ, List.getD_cons_zero]

lemma norm2_eval (x y r : ℝ) (hr : 0 ≤ r) (h : x ^ 2 + y ^ 2 = r ^ 2) :
    norm2 (x, y) = r := by
  unfold norm2
  rw [show ((x, y) : ℝ × ℝ).1 = x from rfl, show ((x, y) : ℝ × ℝ).2 = y from rfl, h]
  exact Real.sqrt_sq hr

/-- C1 (evaluation at the failing input): on the four corners of the
axis-aligned square from (100, 100) to (300, 300), `vertices_to_rrect`
returns center (200, 200) and rotation angle 0, but width 400 and height 400
— the *sum* of the two opposite edge lengths, because `np.mean` on line 49/51
is applied to a scalar — where the spec's stated mean would give 200. -/
theorem vertices_to_rrect_square :
    vertices_to_rrect [((100 : ℝ), 100), (300, 100), (300, 300), (100, 300)] =
      some [200, 200, 400, 400, 0] := by
  have h := vertices_to_rrect_eval ((100 : ℝ), 100) (300, 100) (300, 300) (100, 300)
    200 200 (Real.pi / 4 - Real.pi) (-(Real.pi / 4)) (Real.pi / 4) (-(Real.pi / 4) + Real.pi)
    (by norm_num) (by norm_num)
    (by norm_num [atan2_mm]) (by norm_num [atan2_mp])
    (by norm_num [atan2_pp]) (by norm_num [atan2_pm])
    (by linarith [Real.pi_pos]) (by linarith [Real.pi_pos]) (by linarith [Real.pi_pos])
    (by linarith [Real.pi_pos]) (by linarith [Real.pi_pos]) (by linarith [Real.pi_pos])
  rw [h]
  have n1 : norm2 (((300 : ℝ), (100 : ℝ)) - (100, 100)) = 200 := by
    rw [Prod.mk_sub_mk, show ((300 : ℝ) - 100, (100 : ℝ) - 100) = ((200 : ℝ), (0 : ℝ)) by
      norm_num]
    exact norm2_eval 200 0 200 (by norm_num) (by norm_num)
  have n2 : norm2 (((100 : ℝ), (300 : ℝ)) - (300, 300)) = 200 := by
    rw [Prod.mk_sub_mk, show ((100 : ℝ) - 300, (300 : ℝ) - 300) = ((-200 : ℝ), (0 : ℝ)) by
      norm_num]
    exact norm2_eval (-200) 0 200 (by norm_num) (by norm_num)
  have n3 : norm2 (((300 : ℝ), (300 : ℝ)) - (300, 100)) = 200 := by
    rw [Prod.mk_sub_mk, show ((300 : ℝ) - 300, (300 : ℝ) - 100) = ((0 : ℝ), (200 : ℝ)) by
      norm_num]
    exact norm2_eval 0 200 200 (by norm_num) (by norm_num)
  have n4 : norm2 (((100 : ℝ), (100 : ℝ)) - (100, 300)) = 200 := by
    rw [Prod.mk_sub_mk, show ((100 : ℝ) - 100, (100 : ℝ) - 300) = ((0 : ℝ), (-200 : ℝ)) by
      norm_num]
    exact norm2_eval 0 (-200) 200 (by norm_num) (by norm_num)
  have hang : (Real.pi / 4 - Real.pi + (-(Real.pi / 4) + (Real.pi / 4 +
      (-(Real.pi / 4) + Real.pi + 0)))) / 4 = 0 := by ring
  rw [n1, n2, n3, n4, hang]
  have hdeg : rad2deg 0 = 0 := by
    unfold rad2deg
    simp
  rw [hdeg]
  norm_num

lemma sum_map_add_const (l : List (ℝ × ℝ)) (f : ℝ × ℝ → ℝ) (c : ℝ) :
    (l.map (fun p => f p + c)).sum = (l.map f).sum + l.length * c := by
  induction l with
  | nil => simp
  | cons x tl ih =>
    simp only [List.map_cons, List.sum_cons, List.length_cons, ih]
    push_cast
    ring

lemma map_atan2_shift (l : List (ℝ × ℝ)) (dx dy cx cy : ℝ) :
    (l.map (fun p => (p.1 + dx, p.2 + dy))).map
        (fun v => atan2 (v.2 - (cy + dy)) (v.1 - (cx + dx))) =
      l.map (fun v => atan2 (v.2 - cy) (v.1 - cx)) := by
  rw [List.map_map]
  simp [Function.comp_def, add_sub_add_right_eq_sub]

lemma orderedInsert_map_prodMap (g : (ℝ × ℝ) → (ℝ × ℝ)) (x : ℝ × (ℝ × ℝ)) :
    ∀ l : List (ℝ × (ℝ × ℝ)),
    List.orderedInsert (fun a b => a.1 ≤ b.1) (Prod.map id g x) (l.map (Prod.map id g)) =
      (List.orderedInsert (fun a b => a.1 ≤ b.1) x l).map (Prod.map id g)
  | [] => rfl
  | y :: tl => by
    simp only [List.map_cons, List.orderedInsert]
    by_cases hxy : x.1 ≤ y.1
    · rw [if_pos (show (Prod.map id g x).1 ≤ (Prod.map id g y).1 from hxy), if_pos hxy]
      simp [List.map_cons]
    · rw [if_neg (show ¬((Prod.map id g x).1 ≤ (Prod.map id g y).1) from hxy), if_neg hxy,
        orderedInsert_map_prodMap g x tl]
      simp [List.map_cons]

lemma insertionSort_map_prodMap (g : (ℝ × ℝ) → (ℝ × ℝ)) :
    ∀ l : List (ℝ × (ℝ × ℝ)),
    List.insertionSort (fun a b => a.1 ≤ b.1) (l.map (Prod.map id g)) =
      (List.insertionSort (fun a b => a.1 ≤ b.1) l).map (Prod.map id g)
  | [] => rfl
  | x :: tl => by
    simp only [List.map_cons, List.insertionSort]
    rw [insertionSort_map_prodMap g tl, orderedInsert_map_prodMap g x]

lemma getD_map_lt (g : (ℝ × ℝ) → (ℝ × ℝ)) (l : List (ℝ × ℝ)) (i : ℕ)
    (d1 d2 : ℝ × ℝ) (hi : i < l.length) :
    (l.map g).getD i d1 = g (l.getD i d2) := by
  induction l generalizing i with
  | nil => simp at hi
  | cons x tl ih =>
    cases i with
    | zero => rfl
    | succ n =>
      simp only [List.map_cons, List.getD_cons_succ]
      exact ih n (by simpa using hi)

lemma norm2_sub_shift (a b : ℝ × ℝ) (dx dy : ℝ) :
    norm2 ((a.1 + dx, a.2 + dy) - (b.1 + dx, b.2 + dy)) = norm2 (a - b) := by
  unfold norm2
  rw [Prod.mk_sub_mk]
  simp only [add_sub_add_right_eq_sub, Prod.fst_sub, Prod.snd_sub]

/-- The computation behind C3, as a closed equation: applying
`vertices_to_rrect` after translating the 4 vertices gives the original
result with the center entries shifted and the rest unchanged. -/
lemma vertices_to_rrect_translate_map (vs : List (ℝ × ℝ)) (dx dy : ℝ)
    (h : vs.length = 4) :
    vertices_to_rrect (vs.map (fun p => (p.1 + dx, p.2 + dy))) =
      (vertices_to_rrect vs).map
        (fun r => [r.getD 0 0 + dx, r.getD 1 0 + dy, r.getD 2 0, r.getD 3 0, r.getD 4 0]) := by
  have hlen : ¬(vs.length < 4) := by
    rw [h]
    norm_num
  have hlenT : ¬((vs.map (fun p : ℝ × ℝ => (p.1 + dx, p.2 + dy))).length < 4) := by
    rw [List.length_map, h]
    norm_num
  have hT1 : ((vs.map (fun p : ℝ × ℝ => (p.1 + dx, p.2 + dy))).map Prod.fst).sum /
      (vs.length : ℝ) = (vs.map Prod.fst).sum / (vs.length : ℝ) + dx := by
    rw [List.map_map]
    rw [show (Prod.fst ∘ fun p : ℝ × ℝ => (p.1 + dx, p.2 + dy)) =
      (fun p : ℝ × ℝ => Prod.fst p + dx) from rfl]
    rw [sum_map_add_const vs Prod.fst dx, h]
    push_cast
    ring
  have hT2 : ((vs.map (fun p : ℝ × ℝ => (p.1 + dx, p.2 + dy))).map Prod.snd).sum /
      (vs.length : ℝ) = (vs.map Prod.snd).sum / (vs.length : ℝ) + dy := by
    rw [List.map_map]
    rw [show (Prod.snd ∘ fun p : ℝ × ℝ => (p.1 + dx, p.2 + dy)) =
      (fun p : ℝ × ℝ => Prod.snd p + dy) from rfl]
    rw [sum_map_add_const vs Prod.snd dy, h]
    push_cast
    ring
  simp only [vertices_to_rrect]
  rw [if_neg hlen, if_neg hlenT]
  simp only [List.length_map]
  rw [hT1, hT2, map_atan2_shift, List.zip_map_right, insertionSort_map_prodMap,
    List.map_map]
  rw [show (Prod.snd ∘ Prod.map (id : ℝ → ℝ) (fun p : ℝ × ℝ => (p.1 + dx, p.2 + dy))) =
    ((fun p : ℝ × ℝ => (p.1 + dx, p.2 + dy)) ∘ Prod.snd) from rfl]
  rw [← List.map_map]
  have hlenS : (List.map Prod.snd (List.insertionSort
      (fun (a : ℝ × (ℝ × ℝ)) (b : ℝ × (ℝ × ℝ)) => a.1 ≤ b.1)
      ((vs.map (fun v => atan2 (v.2 - (List.map Prod.snd vs).sum / (vs.length : ℝ))
          (v.1 - (List.map Prod.fst vs).sum / (vs.length : ℝ)))).zip vs))).length = 4 := by
    rw [List.length_map, List.length_insertionSort, List.length_zip, List.length_map, h]
    simp
  obtain ⟨s0, s1, s2, s3, stl, hSeq⟩ := exists_cons4 _ (le_of_eq hlenS.symm)
  have hstl : stl = [] := by
    rw [hSeq] at hlenS
    simp only [List.length_cons] at hlenS
    have : stl.length = 0 := by omega
    exact List.length_eq_zero.mp this
  subst hstl
  rw [hSeq]
  simp only [List.map_cons, List.map_nil, List.getD_cons_zero, List.getD_cons_succ,
    Option.map_some']
  rw [norm2_sub_shift s1 s0, norm2_sub_shift s3 s2, norm2_sub_shift s2 s1,
    norm2_sub_shift s0 s3]

/-- C3: translating all 4 input vertices by (dx, dy) translates the computed
center by exactly (dx, dy) and leaves width, height and rotation angle
unchanged. -/
theorem vertices_to_rrect_translate (vs : List (ℝ × ℝ)) (dx dy : ℝ)
    (h : vs.length = 4) :
    ∃ cx cy w ht ang, vertices_to_rrect vs = some [cx, cy, w, ht, ang] ∧
      vertices_to_rrect (vs.map (fun p => (p.1 + dx, p.2 + dy))) =
        some [cx + dx, cy + dy, w, ht, ang] := by
  have hlen : ¬(vs.length < 4) := by
    rw [h]
    norm_num
  have hS : ∃ cx cy w ht ang, vertices_to_rrect vs = some [cx, cy, w, ht, ang] := by
    simp only [vertices_to_rrect]
    rw [if_neg hlen]
    exact ⟨_, _, _, _, _, rfl⟩
  obtain ⟨cx, cy, w, ht, ang, hS⟩ := hS
  refine ⟨cx, cy, w, ht, ang, hS, ?_⟩
  rw [vertices_to_rrect_translate_map vs dx dy h, hS]
  simp only [Option.map_some', List.getD_cons_zero, List.getD_cons_succ]

/-- Witness for C3 at the concrete square and offset (7, -5). -/
theorem vertices_to_rrect_translate_witness :
    ([((100 : ℝ), (100 : ℝ)), (300, 100), (300, 300), (100, 300)].length = 4) ∧
    (∃ cx cy w ht ang,
      vertices_to_rrect [((100 : ℝ), (100 : ℝ)), (300, 100), (300, 300), (100, 300)] =
        some [cx, cy, w, ht, ang] ∧
      vertices_to_rrect ([((100 : ℝ), (100 : ℝ)), (300, 100), (300, 300),
          (100, 300)].map (fun p => (p.1 + 7, p.2 + (-5)))) =
        some [cx + 7, cy + (-5), w, ht, ang]) :=
  ⟨rfl, vertices_to_rrect_translate _ 7 (-5) rfl⟩

/-- C2 (counterexample): a point shape whose `group_id` *key is absent* makes
`parse_label_file` raise a `KeyError` (line 78 reads `shape['group_id']`
unconditionally) — the shape is not assigned to group 0 and parsing of such a
file does not succeed. -/
theorem parse_label_file_missing_group_id_raises :
    parse_label_file ⟨640, 480, [⟨("point"), 1, none, [(10, 20)]⟩]⟩ =
      .error ("KeyError: group_id") := rfl

/-- C2 (amended): point shapes carrying `group_id` null and `group_id = 0`
(the two representations that survive the key lookup) merge their points and
part-ids into the same group 0, in encounter order, and parsing succeeds. -/
theorem parse_label_file_group_zero_merge :
    parse_label_file ⟨640, 480,
        [⟨("point"), 1, some none, [(10, 20)]⟩,
         ⟨("point"), 2, some (some 0), [(30, 40)]⟩]⟩ =
      .ok ([(0, [(10, 20), (30, 40)])], [(0, [1, 2])], 640, 480) := rfl
